import Mathlib

/-!
Enquete Genre RDC dashboard: formatters, table controller, CSV export, charts.

A shallow embedding of the browser scripts of the dashboard

* `assets/js/utils.js` (`fmtPct`, `fmtNum`, `toCSV`),
* `assets/js/pages/ministeres.js` (`sortRows`, `applyFilters`, the export handler),
* `assets/js/charts.js` (`drawBarChart`, `drawDoughnut`),

followed by the properties stated for them.

Modelling conventions.

* A JavaScript number is `JSNum`: `NaN`, the two infinities, or a finite value held as a
  rational number.  Arithmetic on finite values is exact (binary64 rounding and the sign
  of zero are not modelled); the special values follow IEEE 754.
* A JavaScript value is `JSVal` (the primitive values a parsed JSON row can hold in a
  field); an object is the list of its own properties in `Object.keys` order.
* A JavaScript string is a Lean `String`; its length and the positions of `slice` are
  counted in UTF-16 code units (`jsLength`, `sliceUnits`).
* Services of the host (number parsing and printing, locale formatting, case mapping,
  collation) are fields of `Platform`.
* `Array.prototype.sort` is a stable sort; it is modelled by stable insertion.
-/

namespace EnqueteGenre

/-! ## Numbers -/

/-- A JavaScript number. -/
inductive JSNum where
  | nan
  | ninf
  | fin (q : ℚ)
  | pinf
  deriving DecidableEq, Repr

namespace JSNum

instance instOfNatJSNum (n : ℕ) : OfNat JSNum n := ⟨fin n⟩

/-- Unary minus. -/
def neg : JSNum → JSNum
  | nan => nan
  | ninf => pinf
  | fin q => fin (-q)
  | pinf => ninf

/-- The operator `+` on numbers. -/
def add : JSNum → JSNum → JSNum
  | nan, _ => nan
  | _, nan => nan
  | fin a, fin b => fin (a + b)
  | fin _, pinf => pinf
  | fin _, ninf => ninf
  | pinf, fin _ => pinf
  | pinf, pinf => pinf
  | pinf, ninf => nan
  | ninf, fin _ => ninf
  | ninf, ninf => ninf
  | ninf, pinf => nan

/-- The operator `-` on numbers. -/
def sub (a b : JSNum) : JSNum := add a (neg b)

/-- The operator `*` on numbers. -/
def mul : JSNum → JSNum → JSNum
  | nan, _ => nan
  | _, nan => nan
  | fin a, fin b => fin (a * b)
  | fin a, pinf => if a = 0 then nan else if 0 < a then pinf else ninf
  | fin a, ninf => if a = 0 then nan else if 0 < a then ninf else pinf
  | pinf, fin b => if b = 0 then nan else if 0 < b then pinf else ninf
  | ninf, fin b => if b = 0 then nan else if 0 < b then ninf else pinf
  | pinf, pinf => pinf
  | pinf, ninf => ninf
  | ninf, pinf => ninf
  | ninf, ninf => pinf

/-- The operator `/` on numbers; a zero denominator is the positive zero. -/
def div : JSNum → JSNum → JSNum
  | nan, _ => nan
  | _, nan => nan
  | fin a, fin b =>
    if b = 0 then (if a = 0 then nan else if 0 < a then pinf else ninf) else fin (a / b)
  | fin _, pinf => fin 0
  | fin _, ninf => fin 0
  | pinf, fin b => if 0 ≤ b then pinf else ninf
  | ninf, fin b => if 0 ≤ b then ninf else pinf
  | pinf, pinf => nan
  | pinf, ninf => nan
  | ninf, pinf => nan
  | ninf, ninf => nan

instance : Neg JSNum := ⟨neg⟩
instance : Add JSNum := ⟨add⟩
instance : Sub JSNum := ⟨sub⟩
instance : Mul JSNum := ⟨mul⟩
instance : Div JSNum := ⟨div⟩

/-- The comparison `a < b`; false as soon as one side is `NaN`. -/
def lt : JSNum → JSNum → Bool
  | nan, _ => false
  | _, nan => false
  | ninf, ninf => false
  | ninf, _ => true
  | fin _, ninf => false
  | fin a, fin b => decide (a < b)
  | fin _, pinf => true
  | pinf, _ => false

/-- The comparison `a ≤ b`; false as soon as one side is `NaN`. -/
def le (a b : JSNum) : Bool := a ≠ nan && b ≠ nan && !(lt b a)

/-- The test `v > 0`. -/
def isPos (v : JSNum) : Bool := lt (fin 0) v

/-- The test `v < 0`. -/
def isNeg (v : JSNum) : Bool := lt v (fin 0)

/-- Truthiness of a number: `0` and `NaN` are falsy. -/
def truthy : JSNum → Bool
  | nan => false
  | fin q => decide (q ≠ 0)
  | _ => true

/-- The expression `a || d` on numbers. -/
def orElse (a d : JSNum) : JSNum := if truthy a then a else d

/-- Binary step of `Math.max`. -/
def max2 (a b : JSNum) : JSNum :=
  if a = nan ∨ b = nan then nan else if lt a b then b else a

/-- Binary step of `Math.min`. -/
def min2 (a b : JSNum) : JSNum :=
  if a = nan ∨ b = nan then nan else if lt b a then b else a

/-- The call `Math.max(...xs)`: minus infinity for no argument, `NaN` as soon as one
argument is `NaN`. -/
def mathMax (xs : List JSNum) : JSNum := xs.foldl max2 ninf

/-- The call `Math.round(x)`: the nearest integer, a tie going up. -/
def round : JSNum → JSNum
  | fin q => fin (⌊q + 1 / 2⌋ : ℤ)
  | x => x

end JSNum

/-! ## Values, objects and the host platform -/

/-- A primitive JavaScript value. -/
inductive JSVal where
  | undefined
  | null
  | bool (b : Bool)
  | num (n : JSNum)
  | str (s : String)
  deriving DecidableEq, Repr

/-- An object: its own properties, in the order `Object.keys` lists them. -/
abbrev Obj := List (String × JSVal)

/-- Property access `o[k]`: `undefined` for an absent property. -/
def Obj.get (o : Obj) (k : String) : JSVal := (o.lookup k).getD JSVal.undefined

/-- The call `Object.keys(o)`. -/
def Obj.keys (o : Obj) : List String := o.map Prod.fst

/-- Services of the JavaScript host that the scripts call and do not define. -/
structure Platform where
  /-- `Number(s)` for a string `s`. -/
  stringToNumber : String → JSNum
  /-- `String(x)` for a finite number that is not an integer below `2^53` in size. -/
  numberToString : ℚ → String
  /-- `x.toLocaleString(undefined, {maximumFractionDigits: 0})`. -/
  toLocaleString : JSNum → String
  /-- `s.toLowerCase()`. -/
  toLowerCase : String → String
  /-- `a.localeCompare(b, "fr")`. -/
  localeCompare : String → String → JSNum
  /-- Lower-casing the empty string gives the empty string. -/
  toLowerCase_empty : toLowerCase "" = ""

namespace JSVal

/-- Truthiness of a value. -/
def truthy : JSVal → Bool
  | undefined => false
  | null => false
  | bool b => b
  | num n => n.truthy
  | str s => decide (s ≠ "")

/-- The expression `a || b`. -/
def orElse (a b : JSVal) : JSVal := if a.truthy then a else b

/-- The expression `a ?? b`. -/
def nullish (a b : JSVal) : JSVal :=
  match a with
  | undefined => b
  | null => b
  | v => v

/-- Strict equality `a === b`. -/
def strictEq : JSVal → JSVal → Bool
  | undefined, undefined => true
  | null, null => true
  | bool a, bool b => a == b
  | num a, num b => a ≠ JSNum.nan && a == b
  | str a, str b => a == b
  | _, _ => false

/-- The conversion `Number(x)`. -/
def toNumber (P : Platform) : JSVal → JSNum
  | undefined => JSNum.nan
  | null => 0
  | bool b => if b then 1 else 0
  | num n => n
  | str s => P.stringToNumber s

end JSVal

/-- The conversion `String(x)` of a number.  An integer below `2^53` in size is printed
with its decimal digits; the digits of any other finite number are those the host
chooses (the shortest that read back as the same binary64 value). -/
def numToString (P : Platform) : JSNum → String
  | JSNum.nan => "NaN"
  | JSNum.pinf => "Infinity"
  | JSNum.ninf => "-Infinity"
  | JSNum.fin q =>
    if q.den = 1 ∧ q.num.natAbs < 2 ^ 53 then toString q.num else P.numberToString q

/-- The conversion `String(x)`. -/
def JSVal.toStr (P : Platform) : JSVal → String
  | JSVal.undefined => "undefined"
  | JSVal.null => "null"
  | JSVal.bool b => if b then "true" else "false"
  | JSVal.num n => numToString P n
  | JSVal.str s => s

/-! ## Formatters (`utils.js`) -/

/-- The placeholder shown for a missing value. -/
def dash : String := "—"

/-- The function `fmtPct`. -/
def fmtPct (P : Platform) (x : JSVal) : String :=
  if x = JSVal.null ∨ x = JSVal.undefined ∨ x.toNumber P = JSNum.nan then dash
  else numToString P (x.toNumber P).round ++ "%"

/-- The function `fmtNum`. -/
def fmtNum (P : Platform) (x : JSVal) : String :=
  if x = JSVal.null ∨ x = JSVal.undefined ∨ x.toNumber P = JSNum.nan then dash
  else P.toLocaleString (x.toNumber P)

/-! ## Stable sort -/

/-- The call `[...l].sort(cmp)`.  The sort of the host is stable, so for a consistent
comparator its result is determined: the sorted arrangement in which elements that compare
equal keep their input order.  It is computed here by insertion: `a` goes behind `b` when
`cmp(a, b) > 0`, and a comparison that yields `0` or `NaN` leaves the two in place. -/
def jsSort {α : Type} (cmp : α → α → JSNum) (l : List α) : List α :=
  l.insertionSort (fun a b => (cmp a b).isPos = false)

/-! ## Table controller (`pages/ministeres.js`) -/

/-- The comparator that `sortRows` hands to `sort`. -/
def sortCompare (P : Platform) (key dir : String) (a b : Obj) : JSNum :=
  let sign : JSNum := if dir = "asc" then 1 else -1
  let av := a.get key
  let bv := b.get key
  if key = "ministere" then
    sign * P.localeCompare ((av.orElse (JSVal.str "")).toStr P)
      ((bv.orElse (JSVal.str "")).toStr P)
  else if key = "point_focal" then
    sign * (if av.strictEq bv then 0 else (if av.truthy then 1 else -1))
  else
    sign * (((av.toNumber P).orElse 0) - ((bv.toNumber P).orElse 0))

/-- The function `sortRows`. -/
def sortRows (P : Platform) (rows : List Obj) (key dir : String) : List Obj :=
  jsSort (sortCompare P key dir) rows

/-- White space and line terminators, the characters `trim` removes. -/
def isWhiteSpace (c : Char) : Bool :=
  c.toNat ∈ [9, 10, 11, 12, 13, 32, 160, 5760, 8232, 8233, 8239, 8287, 12288, 65279]
    || (8192 ≤ c.toNat && c.toNat ≤ 8202)

/-- The call `s.trim()`. -/
def trim (s : String) : String :=
  String.mk ((s.data.dropWhile isWhiteSpace).reverse.dropWhile isWhiteSpace).reverse

/-- Whether `q` occurs in `s` as a contiguous run of characters. -/
def includesChars : List Char → List Char → Bool
  | [], q => q.isEmpty
  | c :: s, q => q.isPrefixOf (c :: s) || includesChars s q

/-- The call `s.includes(q)`. -/
def includes (s q : String) : Bool := includesChars s.data q.data

/-- The text query of `applyFilters`: the value of the text input, lower-cased and
trimmed. -/
def queryOf (P : Platform) (value : String) : String :=
  trim (P.toLowerCase (((JSVal.str value).orElse (JSVal.str "")).toStr P))

/-- The filtering step of `applyFilters`: `qValue` is the value of the text input,
`pf` the value of the select. -/
def filterRows (P : Platform) (qValue pf : String) (rows : List Obj) : List Obj :=
  let q := queryOf P qValue
  rows.filter (fun r =>
    let okName := q = "" ||
      includes (P.toLowerCase (((r.get "ministere").orElse (JSVal.str "")).toStr P)) q
    let okPf := pf = "all" || (pf = "yes" && (r.get "point_focal").truthy)
      || (pf = "no" && !(r.get "point_focal").truthy)
    okName && okPf)

/-- The cells of one table row written by `renderTable`; the pill of the third cell is
reduced to its text. -/
structure TableRow where
  ministere : String
  formes_genre : String
  point_focal : String
  integration : String
  score : String
  deriving DecidableEq, Repr

/-- The function `renderTable`: the rows of the table body, top to bottom. -/
def renderTable (P : Platform) (rows : List Obj) : List TableRow :=
  rows.map (fun r =>
    { ministere := (r.get "ministere").toStr P
      formes_genre := fmtPct P (r.get "formes_genre")
      point_focal := if (r.get "point_focal").truthy then "Oui" else "Non"
      integration := fmtPct P (r.get "integration")
      score := fmtNum P (r.get "score") })

/-! ## Chart renderer (`charts.js`) -/

/-- A call or an assignment made on the canvas or on its 2D context. -/
inductive DrawCmd where
  | setSize (width height : JSNum)
  | setTransform (a b c d e f : JSNum)
  | clearRect (x y w h : JSNum)
  | strokeStyle (s : String)
  | lineWidth (n : JSNum)
  | beginPath
  | closePath
  | stroke
  | fill
  | moveTo (x y : JSNum)
  | lineTo (x y : JSNum)
  | fillStyle (s : String)
  | fillStyleRgba (r g b : ℕ) (alpha : JSNum)
  | fillRect (x y w h : JSNum)
  | font (s : String)
  | textAlign (s : String)
  | fillText (t : String) (x y : JSNum)
  | arc (cx cy r startAngle endAngle : JSNum)
  | globalCompositeOperation (s : String)
  deriving DecidableEq, Repr

/-- What the renderer reads from a canvas element: the size of its bounding rectangle
and the device pixel ratio of its window. -/
structure Canvas where
  rectWidth : ℚ
  rectHeight : ℚ
  devicePixelRatio : JSNum
  deriving DecidableEq, Repr

/-- The backing size `canvas.width`, `canvas.height` that `setupHiDPI` assigns. -/
def backingSize (cv : Canvas) : JSNum × JSNum :=
  let dpr := cv.devicePixelRatio.orElse 1
  ((JSNum.fin cv.rectWidth * dpr).round, (JSNum.fin cv.rectHeight * dpr).round)

/-- The function `setupHiDPI`. -/
def setupHiDPI (cv : Canvas) : List DrawCmd :=
  let dpr := cv.devicePixelRatio.orElse 1
  [DrawCmd.setSize (backingSize cv).1 (backingSize cv).2, DrawCmd.setTransform dpr 0 0 dpr 0 0]

/-- The function `clearCanvas`. -/
def clearCanvas (cv : Canvas) : List DrawCmd :=
  [DrawCmd.clearRect 0 0 (backingSize cv).1 (backingSize cv).2]

/-- One iteration of the loop of `drawBarChart`. -/
structure Bar where
  x : JSNum
  y : JSNum
  barW : JSNum
  barH : JSNum
  valueText : String
  short : String
  deriving DecidableEq, Repr

/-- The result of `drawBarChart`: its locals, the bars in drawing order, the
denominator of every division it evaluated, in evaluation order, and the calls made. -/
structure BarChart where
  chartW : JSNum
  chartH : JSNum
  maxV : JSNum
  barW : JSNum
  bars : List Bar
  denominators : List JSNum
  cmds : List DrawCmd
  deriving DecidableEq, Repr

/-- The number of UTF-16 code units that a character takes in a JavaScript string. -/
def utf16Units (c : Char) : ℕ := if c.toNat < 65536 then 1 else 2

/-- The property `s.length`: the number of UTF-16 code units of `s`. -/
def jsLength (s : String) : ℕ := (s.data.map utf16Units).sum

/-- The characters of the first `n` UTF-16 code units of a string.  When the cut falls
inside a character of two code units, the half that is left is written `U+FFFD`, a Lean
string holding no lone surrogate. -/
def sliceUnits : List Char → ℕ → List Char
  | [], _ => []
  | _ :: _, 0 => []
  | c :: cs, n + 1 =>
    if c.toNat < 65536 then c :: sliceUnits cs n
    else if n = 0 then [Char.ofNat 65533] else c :: sliceUnits cs (n - 1)

/-- The call `s.slice(0, n)`. -/
def jsSlice (s : String) (n : ℕ) : String := String.mk (sliceUnits s.data n)

/-- The label drawn under a bar: `lab.length>14?lab.slice(0,13)+"…":lab` for
`lab=labels[i]||""`. -/
def shortLabel (P : Platform) (label : JSVal) : String :=
  match label.orElse (JSVal.str "") with
  | JSVal.str lab => if jsLength lab > 14 then jsSlice lab 13 ++ "…" else lab
  | lab => lab.toStr P

/-- The body of the loop of `drawBarChart` for the value `v` at index `i`. -/
def drawBar (P : Platform) (padding chartH maxV barW gap : JSNum) (labels : List JSVal)
    (i : ℕ) (v : JSVal) : Bar :=
  let x := padding + JSNum.fin i * (barW + gap)
  let barH := (v.toNumber P / maxV) * chartH
  let y := padding + chartH - barH
  { x := x, y := y, barW := barW, barH := barH
    valueText := numToString P (v.toNumber P).round
    short := shortLabel P (labels.getD i JSVal.undefined) }

/-- The calls made by one iteration of the loop of `drawBarChart`. -/
def Bar.cmds (padding chartH : JSNum) (b : Bar) : List DrawCmd :=
  [DrawCmd.fillStyle "rgba(68,139,202,.55)", DrawCmd.fillRect b.x b.y b.barW b.barH,
    DrawCmd.fillStyle "rgba(245,130,32,.70)", DrawCmd.fillRect b.x b.y b.barW 3,
    DrawCmd.fillStyle "rgba(17,24,39,.8)", DrawCmd.font "12px system-ui, Segoe UI, Arial",
    DrawCmd.textAlign "center",
    DrawCmd.fillText b.valueText (b.x + b.barW / 2) (b.y - 6),
    DrawCmd.fillStyle "rgba(107,114,128,1)",
    DrawCmd.fillText b.short (b.x + b.barW / 2) (padding + chartH + 18)]

/-- The function `drawBarChart`. -/
def drawBarChart (P : Platform) (cv : Canvas) (labels values : List JSVal) : BarChart :=
  let w := JSNum.fin cv.rectWidth
  let h := JSNum.fin cv.rectHeight
  let padding : JSNum := 28
  let chartW := w - padding * 2
  let chartH := h - padding * 2 - 22
  let maxV := JSNum.mathMax (values.map (JSVal.toNumber P) ++ [1])
  let gap : JSNum := 10
  let len := JSNum.fin values.length
  let barW := JSNum.max2 10 ((chartW - gap * (len - 1)) / len)
  let bars := values.enum.map (fun iv => drawBar P padding chartH maxV barW gap labels iv.1 iv.2)
  { chartW := chartW, chartH := chartH, maxV := maxV, barW := barW, bars := bars
    denominators := len :: values.flatMap (fun _ => [maxV, 2, 2])
    cmds := setupHiDPI cv ++ clearCanvas cv ++
      [DrawCmd.strokeStyle "rgba(17,24,39,.15)", DrawCmd.lineWidth 1, DrawCmd.beginPath,
        DrawCmd.moveTo padding padding, DrawCmd.lineTo padding (padding + chartH),
        DrawCmd.lineTo (padding + chartW) (padding + chartH), DrawCmd.stroke]
      ++ bars.flatMap (Bar.cmds padding chartH) }

/-- The value of `Math.PI`. -/
def mathPI : JSNum := JSNum.fin (884279719003555 / 281474976710656)

/-- One iteration of the loop of `drawDoughnut`. -/
structure Wedge where
  startAngle : JSNum
  endAngle : JSNum
  base : ℕ × ℕ × ℕ
  alpha : JSNum
  deriving DecidableEq, Repr

/-- The loop of `drawDoughnut` over the segments left, `start` being the running angle
and `idx` the index of the first segment left. -/
def wedgesFrom (P : Platform) (total : JSNum) : JSNum → ℕ → List Obj → List Wedge
  | _, _, [] => []
  | start, idx, s :: rest =>
    let v := ((s.get "value").toNumber P).orElse 0
    let ang := (v / total) * mathPI * 2
    let endAngle := start + ang
    let base := if idx % 2 = 0 then (68, 139, 202) else (245, 130, 32)
    let alpha := JSNum.fin (32 / 100) + JSNum.fin ((idx % 6 : ℕ)) * JSNum.fin (10 / 100)
    { startAngle := start, endAngle := endAngle, base := base
      alpha := JSNum.min2 alpha (JSNum.fin (92 / 100)) }
      :: wedgesFrom P total endAngle (idx + 1) rest

/-- The result of `drawDoughnut`: the total, the wedges in drawing order, the
denominator of every division it evaluated, in evaluation order, and the calls made. -/
structure Doughnut where
  total : JSNum
  wedges : List Wedge
  denominators : List JSNum
  cmds : List DrawCmd
  deriving DecidableEq, Repr

/-- The sum that `drawDoughnut` computes with `reduce`: the values of the segments,
each taken as `Number(s.value)||0`, added up from `0` in input order. -/
def sumValues (P : Platform) (segments : List Obj) : JSNum :=
  segments.foldl (fun a s => a + ((s.get "value").toNumber P).orElse 0) (0 : JSNum)

/-- The function `drawDoughnut`; `centerText` is `opts.centerText`. -/
def drawDoughnut (P : Platform) (cv : Canvas) (segments : List Obj) (centerText : JSVal) :
    Doughnut :=
  let w := JSNum.fin cv.rectWidth
  let h := JSNum.fin cv.rectHeight
  let total := (sumValues P segments).orElse 1
  let cx := w / 2
  let cy := h / 2
  let rOuter := JSNum.min2 w h * JSNum.fin (33 / 100)
  let rInner := rOuter * JSNum.fin (62 / 100)
  let wedges := wedgesFrom P total (-mathPI / 2) 0 segments
  { total := total, wedges := wedges
    denominators := [2, 2, 2] ++ segments.map (fun _ => total)
    cmds := setupHiDPI cv ++ clearCanvas cv ++
      wedges.flatMap (fun g =>
        [DrawCmd.fillStyleRgba g.base.1 g.base.2.1 g.base.2.2 g.alpha, DrawCmd.beginPath,
          DrawCmd.moveTo cx cy, DrawCmd.arc cx cy rOuter g.startAngle g.endAngle,
          DrawCmd.closePath, DrawCmd.fill])
      ++ [DrawCmd.globalCompositeOperation "destination-out", DrawCmd.beginPath,
        DrawCmd.arc cx cy rInner 0 (mathPI * 2), DrawCmd.closePath, DrawCmd.fill,
        DrawCmd.globalCompositeOperation "source-over",
        DrawCmd.fillStyle "rgba(17,24,39,.86)",
        DrawCmd.font "800 18px system-ui, Segoe UI, Arial", DrawCmd.textAlign "center",
        DrawCmd.fillText ((centerText.orElse (JSVal.str "")).toStr P) cx (cy + 6)] }

/-! ## `applyFilters` -/

/-- The sort spec held in `_currentSort`. -/
structure SortSpec where
  key : String
  dir : String
  deriving DecidableEq, Repr

/-- The page state: `_ministeres`, `_filtered` and `_currentSort`. -/
structure PageState where
  ministeres : List Obj
  filtered : List Obj
  currentSort : SortSpec
  deriving DecidableEq, Repr

/-- The state of the page script when it is loaded. -/
def initialState : PageState :=
  { ministeres := [], filtered := [], currentSort := { key := "score", dir := "desc" } }

/-- What `applyFilters` reads from the document. -/
structure Inputs where
  qMinistere : String
  fPointFocal : String
  chartMinisteres : Canvas
  deriving DecidableEq, Repr

/-- What `applyFilters` leaves behind: the new page state, the table body, the chart and
the text of the row counter. -/
structure View where
  state : PageState
  tblBody : List TableRow
  chart : BarChart
  countMinisteres : String
  deriving DecidableEq, Repr

/-- The function `applyFilters`. -/
def applyFilters (P : Platform) (s : PageState) (d : Inputs) : View :=
  let filtered := filterRows P d.qMinistere d.fPointFocal s.ministeres
  let filtered := sortRows P filtered s.currentSort.key s.currentSort.dir
  let top := (sortRows P filtered "score" "desc").take 10
  { state := { s with filtered := filtered }
    tblBody := renderTable P filtered
    chart := drawBarChart P d.chartMinisteres (top.map (fun x => x.get "ministere"))
      (top.map (fun x => x.get "score"))
    countMinisteres := fmtNum P (JSVal.num (JSNum.fin filtered.length)) }

/-! ## CSV export -/

/-- The double quote character. -/
def dquote : Char := '"'

/-- The characters of `s.replaceAll('"','""')`: every double quote is written twice. -/
def doubleQuoteChars : List Char → List Char
  | [] => []
  | c :: cs =>
    if c = dquote then dquote :: dquote :: doubleQuoteChars cs else c :: doubleQuoteChars cs

/-- The call `s.replaceAll('"','""')`. -/
def doubleQuotes (s : String) : String := String.mk (doubleQuoteChars s.data)

/-- The local function `esc` of `toCSV`. -/
def esc (P : Platform) (v : JSVal) : String :=
  "\"" ++ doubleQuotes ((v.nullish (JSVal.str "")).toStr P) ++ "\""

/-- The function `toCSV`. -/
def toCSV (P : Platform) (rows : List Obj) : String :=
  match rows with
  | [] => ""
  | r0 :: _ =>
    let headers := r0.keys
    "\n".intercalate
      (",".intercalate headers ::
        rows.map (fun r => ",".intercalate (headers.map (fun h => esc P (r.get h)))))

/-- The rows that the click handler of `btnExport` builds from `_filtered`. -/
def exportRows (filtered : List Obj) : List Obj :=
  filtered.map (fun r =>
    [("ministere", r.get "ministere"),
      ("formes_genre_pct", r.get "formes_genre"),
      ("point_focal", JSVal.str (if (r.get "point_focal").truthy then "Oui" else "Non")),
      ("integration_pct", r.get "integration"),
      ("score", r.get "score")])

/-- The click handler of `btnExport`: the name and the text of the file handed to
`downloadText`. -/
def btnExportClick (P : Platform) (s : PageState) : String × String :=
  ("ministeres_table.csv", toCSV P (exportRows s.filtered))

/-! ## Reading a quoted CSV field back -/

/-- Reads the inside of a quoted field up to its closing quote: a doubled quote stands
for one quote, a lone quote before the end is an error. -/
def unescapeChars : List Char → Option (List Char)
  | [] => none
  | [c] => if c = dquote then some [] else none
  | c :: d :: rest =>
    if c = dquote then
      (if d = dquote then (unescapeChars rest).map (fun t => dquote :: t) else none)
    else (unescapeChars (d :: rest)).map (fun t => c :: t)

/-- Reads a field that is wrapped in double quotes; `none` when it is not such a
field. -/
def unquote (field : String) : Option String :=
  match field.data with
  | [] => none
  | c :: rest => if c = dquote then (unescapeChars rest).map String.mk else none

/-! ## A concrete host -/

/-- A host used to evaluate the scripts on concrete inputs: decimal integers are the
only numeric strings, case mapping is that of ASCII, collation is by code point. -/
def refPlatform : Platform where
  stringToNumber s := if s = "" then 0 else
    match s.toInt? with
    | some n => JSNum.fin n
    | none => JSNum.nan
  numberToString q := toString q.num ++ "/" ++ toString q.den
  toLocaleString n :=
    match n.round with
    | JSNum.fin q => toString q.num
    | JSNum.nan => "NaN"
    | JSNum.pinf => "∞"
    | JSNum.ninf => "-∞"
  toLowerCase s := String.mk (s.data.map Char.toLower)
  localeCompare a b := if a < b then JSNum.fin (-1) else if b < a then 1 else 0
  toLowerCase_empty := rfl

/-! ## Sample data -/

/-- Two ministry rows with the same score. -/
def tiedRows : List Obj :=
  [[("ministere", JSVal.str "A"), ("score", JSVal.num 5)],
    [("ministere", JSVal.str "B"), ("score", JSVal.num 5)]]

/-- The two ministry rows of the end-to-end example. -/
def sampleRows : List Obj :=
  [[("ministere", JSVal.str "A"), ("score", JSVal.num 10)],
    [("ministere", JSVal.str "B"), ("score", JSVal.num 90)]]

/-- A canvas of 300 by 200 CSS pixels on a display of pixel ratio 2. -/
def sampleCanvas : Canvas := { rectWidth := 300, rectHeight := 200, devicePixelRatio := 2 }

/-- Two segments whose values, 5 and -5, add up to zero. -/
def mixedSegments : List Obj :=
  [[("label", JSVal.str "F"), ("value", JSVal.num 5)],
    [("label", JSVal.str "M"), ("value", JSVal.num (JSNum.fin (-5)))]]

/-- Two segments of value zero. -/
def zeroSegments : List Obj :=
  [[("label", JSVal.str "F"), ("value", JSVal.num 0)],
    [("label", JSVal.str "M"), ("value", JSVal.null)]]

/-- Four ministry rows with a boolean `point_focal`. -/
def focalRows : List Obj :=
  [[("ministere", JSVal.str "A"), ("point_focal", JSVal.bool false)],
    [("ministere", JSVal.str "B"), ("point_focal", JSVal.bool true)],
    [("ministere", JSVal.str "C"), ("point_focal", JSVal.bool false)],
    [("ministere", JSVal.str "D"), ("point_focal", JSVal.bool true)]]

/-! ## Order on numbers -/

/-- The place of a number on the extended rational line (`NaN` is sent to the bottom). -/
def JSNum.rank : JSNum → WithBot (WithTop ℚ)
  | JSNum.nan => ⊥
  | JSNum.ninf => ⊥
  | JSNum.fin q => ((q : WithTop ℚ) : WithBot (WithTop ℚ))
  | JSNum.pinf => ((⊤ : WithTop ℚ) : WithBot (WithTop ℚ))

/-- The number by which `sortRows` compares a row on a numeric column:
`Number(r[key])||0`. -/
def numKey (P : Platform) (key : String) (r : Obj) : JSNum :=
  ((r.get key).toNumber P).orElse 0

namespace JSNum

theorem one_def : (1 : JSNum) = fin 1 := by
  show fin ((1 : ℕ) : ℚ) = fin 1
  simp

theorem zero_def : (0 : JSNum) = fin 0 := by
  show fin ((0 : ℕ) : ℚ) = fin 0
  simp

theorem neg_one_def : (-1 : JSNum) = fin (-1) := by
  show neg (fin ((1 : ℕ) : ℚ)) = fin (-1)
  simp [neg]

theorem ofNat_def (n : ℕ) [n.AtLeastTwo] : (OfNat.ofNat n : JSNum) = fin (OfNat.ofNat n) := by
  show fin ((OfNat.ofNat n : ℕ) : ℚ) = fin (OfNat.ofNat n)
  simp

theorem sub_def (a b : JSNum) : a - b = add a (neg b) := rfl

theorem neg_fin (q : ℚ) : -(fin q) = fin (-q) := rfl

theorem rank_fin_lt_pinf (q : ℚ) : rank (fin q) < rank pinf :=
  WithBot.coe_lt_coe.mpr (WithTop.coe_lt_top q)

theorem lt_iff_rank {a b : JSNum} (ha : a ≠ nan) (hb : b ≠ nan) :
    lt a b = true ↔ rank a < rank b := by
  cases a <;> cases b <;>
    first
    | exact absurd rfl ha
    | exact absurd rfl hb
    | exact ⟨fun _ => rank_fin_lt_pinf _, fun _ => rfl⟩
    | exact ⟨fun h => by simp [lt] at h,
        fun h => absurd h (not_lt.mpr (le_of_lt (rank_fin_lt_pinf _)))⟩
    | simp [lt, rank, WithBot.bot_lt_coe]

theorem rank_inj {a b : JSNum} (ha : a ≠ nan) (hb : b ≠ nan) (h : rank a = rank b) : a = b := by
  cases a <;> cases b <;> simp_all [rank]

theorem lt_self (a : JSNum) : lt a a = false := by
  cases a <;> simp [lt]

theorem le_iff_rank {a b : JSNum} :
    le a b = true ↔ a ≠ nan ∧ b ≠ nan ∧ rank a ≤ rank b := by
  by_cases ha : a = nan
  · simp [le, ha]
  by_cases hb : b = nan
  · simp [le, hb]
  have h := lt_iff_rank hb ha
  simp only [le, ha, hb, ne_eq, not_false_eq_true, decide_True, Bool.true_and, true_and,
    Bool.not_eq_true', ← not_lt, ← h, Bool.not_eq_true]

theorem orElse_ne_nan (a : JSNum) (q : ℚ) : orElse a (fin q) ≠ nan := by
  cases a <;> simp [orElse, truthy]
  split <;> simp

theorem isPos_sub {a b : JSNum} (ha : a ≠ nan) (hb : b ≠ nan) :
    isPos (a - b) = lt b a := by
  cases a <;> cases b <;>
    first
    | exact absurd rfl ha
    | exact absurd rfl hb
    | simp [isPos, lt, sub_def, add, neg]

theorem isNeg_sub {a b : JSNum} (ha : a ≠ nan) (hb : b ≠ nan) :
    isNeg (a - b) = lt a b := by
  cases a <;> cases b <;>
    first
    | exact absurd rfl ha
    | exact absurd rfl hb
    | simp [isNeg, lt, sub_def, add, neg]

theorem isPos_one_mul (x : JSNum) : isPos ((1 : JSNum) * x) = isPos x := by
  rw [one_def]
  show isPos (mul (fin 1) x) = isPos x
  cases x <;> norm_num [mul, isPos, lt]

theorem isPos_neg_one_mul (x : JSNum) : isPos ((-1 : JSNum) * x) = isNeg x := by
  rw [neg_one_def]
  show isPos (mul (fin (-1)) x) = isNeg x
  cases x <;> norm_num [mul, isPos, isNeg, lt]

end JSNum

/-! ## Stable sort: general facts -/

section StableSort

variable {α : Type}

theorem orderedInsert_congr {r s : α → α → Prop} [DecidableRel r] [DecidableRel s]
    (a : α) (l : List α) (h : ∀ b ∈ l, (r a b ↔ s a b)) :
    l.orderedInsert r a = l.orderedInsert s a := by
  induction l with
  | nil => rfl
  | cons b l ih =>
    have hb : r a b ↔ s a b := h b (List.mem_cons_self _ _)
    have ih := ih (fun c hc => h c (List.mem_cons_of_mem _ hc))
    by_cases hr : r a b
    · simp [List.orderedInsert, hr, hb.mp hr]
    · have hs : ¬ s a b := fun hs => hr (hb.mpr hs)
      simp [List.orderedInsert, hr, hs, ih]

theorem insertionSort_congr {r s : α → α → Prop} [DecidableRel r] [DecidableRel s]
    (l : List α) (h : ∀ a ∈ l, ∀ b ∈ l, (r a b ↔ s a b)) :
    l.insertionSort r = l.insertionSort s := by
  induction l with
  | nil => rfl
  | cons a l ih =>
    have ih := ih (fun x hx y hy => h x (List.mem_cons_of_mem _ hx) y (List.mem_cons_of_mem _ hy))
    simp only [List.insertionSort, ih]
    apply orderedInsert_congr
    intro b hb
    exact h a (List.mem_cons_self _ _) b
      (List.mem_cons_of_mem _ ((List.mem_insertionSort s).mp hb))

theorem jsSort_perm (cmp : α → α → JSNum) (l : List α) : (jsSort cmp l).Perm l :=
  List.perm_insertionSort _ l

theorem jsSort_eq_of_key {K : Type} [LinearOrder K] (cmp : α → α → JSNum) (k : α → K)
    (l : List α) (h : ∀ a ∈ l, ∀ b ∈ l, ((cmp a b).isPos = false ↔ k a ≤ k b)) :
    jsSort cmp l = l.insertionSort (fun a b => k a ≤ k b) :=
  insertionSort_congr l h

theorem insertionSort_key_sorted {K : Type} [LinearOrder K] (k : α → K) (l : List α) :
    (l.insertionSort (fun a b => k a ≤ k b)).Pairwise (fun a b => k a ≤ k b) := by
  haveI : IsTotal α (fun a b => k a ≤ k b) := ⟨fun a b => le_total (k a) (k b)⟩
  haveI : IsTrans α (fun a b => k a ≤ k b) := ⟨fun _ _ _ h₁ h₂ => le_trans h₁ h₂⟩
  exact List.sorted_insertionSort (fun a b => k a ≤ k b) l

theorem jsSort_sorted_of_key {K : Type} [LinearOrder K] (cmp : α → α → JSNum) (k : α → K)
    (l : List α) (h : ∀ a ∈ l, ∀ b ∈ l, ((cmp a b).isPos = false ↔ k a ≤ k b)) :
    (jsSort cmp l).Pairwise (fun a b => k a ≤ k b) := by
  rw [jsSort_eq_of_key cmp k l h]
  exact insertionSort_key_sorted k l

theorem jsSort_eq_self_of_key {K : Type} [LinearOrder K] (cmp : α → α → JSNum) (k : α → K)
    (l : List α) (h : ∀ a ∈ l, ∀ b ∈ l, ((cmp a b).isPos = false ↔ k a ≤ k b))
    (hs : l.Pairwise (fun a b => k a ≤ k b)) : jsSort cmp l = l := by
  rw [jsSort_eq_of_key cmp k l h]
  exact List.Sorted.insertionSort_eq hs

end StableSort

/-! ## `sortRows` on a numeric column -/

theorem numKey_ne_nan (P : Platform) (key : String) (r : Obj) : numKey P key r ≠ JSNum.nan := by
  unfold numKey
  rw [JSNum.zero_def]
  exact JSNum.orElse_ne_nan _ _

theorem sortCompare_numeric (P : Platform) (key dir : String) (a b : Obj)
    (h₁ : key ≠ "ministere") (h₂ : key ≠ "point_focal") :
    sortCompare P key dir a b =
      (if dir = "asc" then 1 else -1) * (numKey P key a - numKey P key b) := by
  simp [sortCompare, h₁, h₂, numKey]

theorem sortCompare_asc_isPos (P : Platform) (key : String) (a b : Obj)
    (h₁ : key ≠ "ministere") (h₂ : key ≠ "point_focal") :
    (sortCompare P key "asc" a b).isPos = false ↔
      (numKey P key a).rank ≤ (numKey P key b).rank := by
  rw [sortCompare_numeric P key "asc" a b h₁ h₂, if_pos rfl, JSNum.isPos_one_mul,
    JSNum.isPos_sub (numKey_ne_nan P key a) (numKey_ne_nan P key b), ← not_lt,
    ← JSNum.lt_iff_rank (numKey_ne_nan P key b) (numKey_ne_nan P key a)]
  simp

theorem sortCompare_desc_isPos (P : Platform) (key dir : String) (a b : Obj)
    (h₁ : key ≠ "ministere") (h₂ : key ≠ "point_focal") (hd : dir ≠ "asc") :
    (sortCompare P key dir a b).isPos = false ↔
      (numKey P key b).rank ≤ (numKey P key a).rank := by
  rw [sortCompare_numeric P key dir a b h₁ h₂, if_neg hd, JSNum.isPos_neg_one_mul,
    JSNum.isNeg_sub (numKey_ne_nan P key a) (numKey_ne_nan P key b), ← not_lt,
    ← JSNum.lt_iff_rank (numKey_ne_nan P key a) (numKey_ne_nan P key b)]
  simp

theorem sortRows_perm (P : Platform) (rows : List Obj) (key dir : String) :
    (sortRows P rows key dir).Perm rows :=
  jsSort_perm _ rows

theorem sortRows_asc_sorted (P : Platform) (rows : List Obj) (key : String)
    (h₁ : key ≠ "ministere") (h₂ : key ≠ "point_focal") :
    (sortRows P rows key "asc").Pairwise
      (fun a b => (numKey P key a).rank ≤ (numKey P key b).rank) :=
  jsSort_sorted_of_key _ (fun r => (numKey P key r).rank) rows
    (fun a _ b _ => sortCompare_asc_isPos P key a b h₁ h₂)

theorem sortRows_desc_sorted (P : Platform) (rows : List Obj) (key dir : String)
    (h₁ : key ≠ "ministere") (h₂ : key ≠ "point_focal") (hd : dir ≠ "asc") :
    (sortRows P rows key dir).Pairwise
      (fun a b => (numKey P key b).rank ≤ (numKey P key a).rank) :=
  jsSort_sorted_of_key _ (fun r => OrderDual.toDual (numKey P key r).rank) rows
    (fun a _ b _ => sortCompare_desc_isPos P key dir a b h₁ h₂ hd)

theorem sortRows_desc_of_sorted (P : Platform) (rows : List Obj) (key dir : String)
    (h₁ : key ≠ "ministere") (h₂ : key ≠ "point_focal") (hd : dir ≠ "asc")
    (hs : rows.Pairwise (fun a b => (numKey P key b).rank ≤ (numKey P key a).rank)) :
    sortRows P rows key dir = rows :=
  jsSort_eq_self_of_key _ (fun r => OrderDual.toDual (numKey P key r).rank) rows
    (fun a _ b _ => sortCompare_desc_isPos P key dir a b h₁ h₂ hd) hs

/-! ## C1: ascending then descending sort by score -/

/-- C1, as stated, fails: on two rows with the same score the ascending sort followed by
the descending sort returns the rows in their original order, not in reverse order. -/
theorem sortRows_asc_desc_tied :
    sortRows refPlatform (sortRows refPlatform tiedRows "score" "asc") "score" "desc"
      ≠ (sortRows refPlatform tiedRows "score" "asc").reverse := by
  decide!

/-- C1, amended: sorting by score ascending and then descending lists the scores
(`Number(score)||0`) in the reverse order of the ascending sort, and returns exactly the
reverse of the ascending sort when no two rows have the same score. -/
theorem sortRows_asc_desc_reverse (P : Platform) (rows : List Obj) :
    (sortRows P (sortRows P rows "score" "asc") "score" "desc").map (numKey P "score")
        = ((sortRows P rows "score" "asc").map (numKey P "score")).reverse
      ∧ ((rows.map (numKey P "score")).Nodup →
        sortRows P (sortRows P rows "score" "asc") "score" "desc"
          = (sortRows P rows "score" "asc").reverse) := by
  have h₁ : ("score" : String) ≠ "ministere" := by decide
  have h₂ : ("score" : String) ≠ "point_focal" := by decide
  have hd : ("desc" : String) ≠ "asc" := by decide
  have hasc := sortRows_asc_sorted P rows "score" h₁ h₂
  have hdesc := sortRows_desc_sorted P (sortRows P rows "score" "asc") "score" "desc" h₁ h₂ hd
  have hperm := sortRows_perm P (sortRows P rows "score" "asc") "score" "desc"
  have hrev : ((sortRows P rows "score" "asc").reverse).Pairwise
      (fun a b => (numKey P "score" b).rank ≤ (numKey P "score" a).rank) :=
    List.pairwise_reverse.mpr hasc
  constructor
  · have hk₁ : ((sortRows P (sortRows P rows "score" "asc") "score" "desc").map
        (numKey P "score")).Pairwise (fun x y => y.rank ≤ x.rank) :=
      List.pairwise_map.mpr hdesc
    have hk₂ : (((sortRows P rows "score" "asc").map (numKey P "score")).reverse).Pairwise
        (fun x y => y.rank ≤ x.rank) := by
      rw [← List.map_reverse]
      exact List.pairwise_map.mpr hrev
    refine List.Perm.eq_of_sorted ?_ hk₁ hk₂ ((hperm.map _).trans (List.reverse_perm _).symm)
    intro x y hx hy hxy hyx
    obtain ⟨a, _, rfl⟩ := List.mem_map.mp hx
    have hy := List.mem_reverse.mp hy
    obtain ⟨b, _, rfl⟩ := List.mem_map.mp hy
    exact JSNum.rank_inj (numKey_ne_nan P _ a) (numKey_ne_nan P _ b) (le_antisymm hyx hxy)
  · intro hnd
    refine List.Perm.eq_of_sorted ?_ hdesc hrev (hperm.trans (List.reverse_perm _).symm)
    intro a b ha hb hab hba
    have ha : a ∈ rows := (sortRows_perm P rows "score" "asc").mem_iff.mp (hperm.mem_iff.mp ha)
    have hb : b ∈ rows :=
      (sortRows_perm P rows "score" "asc").mem_iff.mp (List.mem_reverse.mp hb)
    exact List.inj_on_of_nodup_map hnd ha hb
      (JSNum.rank_inj (numKey_ne_nan P _ a) (numKey_ne_nan P _ b) (le_antisymm hba hab))

/-- C1, amended, on the two rows of the end-to-end example, whose scores differ. -/
theorem sortRows_asc_desc_reverse_witness :
    (sampleRows.map (numKey refPlatform "score")).Nodup
      ∧ sortRows refPlatform (sortRows refPlatform sampleRows "score" "asc") "score" "desc"
        = (sortRows refPlatform sampleRows "score" "asc").reverse :=
  ⟨by decide!, (sortRows_asc_desc_reverse refPlatform sampleRows).2 (by decide!)⟩

/-! ## C2: descending sort by the boolean column -/

theorem sortCompare_focal_desc_isPos (P : Platform) (a b : Obj) (x y : Bool)
    (ha : a.get "point_focal" = JSVal.bool x) (hb : b.get "point_focal" = JSVal.bool y) :
    (sortCompare P "point_focal" "desc" a b).isPos = false ↔
      (b.get "point_focal").truthy ≤ (a.get "point_focal").truthy := by
  have h₁ : ("point_focal" : String) ≠ "ministere" := by decide
  have hd : ("desc" : String) ≠ "asc" := by decide
  simp only [sortCompare, h₁, hd, if_false, if_true, ha, hb, JSNum.isPos_neg_one_mul]
  cases x <;> cases y <;>
    simp [JSVal.strictEq, JSVal.truthy, JSNum.isNeg, JSNum.lt, JSNum.zero_def, JSNum.one_def,
      JSNum.neg_fin]

/-- C2: on rows whose `point_focal` is a boolean, the descending sort by `point_focal`
returns a permutation of the rows in which every row with `point_focal = true` stands
before every row with `point_focal = false`. -/
theorem sortRows_point_focal_desc (P : Platform) (rows : List Obj)
    (h : ∀ r ∈ rows, ∃ b, r.get "point_focal" = JSVal.bool b) :
    (sortRows P rows "point_focal" "desc").Perm rows ∧
      ∀ (i j : ℕ) (hi : i < (sortRows P rows "point_focal" "desc").length)
        (hj : j < (sortRows P rows "point_focal" "desc").length),
        ((sortRows P rows "point_focal" "desc")[i]).get "point_focal" = JSVal.bool true →
        ((sortRows P rows "point_focal" "desc")[j]).get "point_focal" = JSVal.bool false →
        i < j := by
  refine ⟨sortRows_perm P rows _ _, ?_⟩
  have hs : (sortRows P rows "point_focal" "desc").Pairwise
      (fun a b => (b.get "point_focal").truthy ≤ (a.get "point_focal").truthy) := by
    refine jsSort_sorted_of_key _
      (fun r => OrderDual.toDual (r.get "point_focal").truthy) rows ?_
    intro a ha b hb
    obtain ⟨x, hx⟩ := h a ha
    obtain ⟨y, hy⟩ := h b hb
    exact sortCompare_focal_desc_isPos P a b x y hx hy
  intro i j hi hj hti hfj
  by_contra hij
  have hne : j ≠ i := by
    rintro rfl
    rw [hti] at hfj
    cases hfj
  have hlt : j < i := lt_of_le_of_ne (not_lt.mp hij) hne
  have := List.pairwise_iff_getElem.mp hs j i hj hi hlt
  rw [hti, hfj] at this
  exact absurd this (by decide)

/-- C2 on four rows, two of them with a focal point. -/
theorem sortRows_point_focal_desc_witness :
    (sortRows refPlatform focalRows "point_focal" "desc").Perm focalRows ∧
      ∀ (i j : ℕ) (hi : i < (sortRows refPlatform focalRows "point_focal" "desc").length)
        (hj : j < (sortRows refPlatform focalRows "point_focal" "desc").length),
        ((sortRows refPlatform focalRows "point_focal" "desc")[i]).get "point_focal"
          = JSVal.bool true →
        ((sortRows refPlatform focalRows "point_focal" "desc")[j]).get "point_focal"
          = JSVal.bool false →
        i < j :=
  sortRows_point_focal_desc refPlatform focalRows (by
    intro r hr
    simp only [focalRows, List.mem_cons, List.mem_singleton, List.not_mem_nil, or_false] at hr
    rcases hr with rfl | rfl | rfl | rfl
    · exact ⟨false, rfl⟩
    · exact ⟨true, rfl⟩
    · exact ⟨false, rfl⟩
    · exact ⟨true, rfl⟩)

/-! ## C3: the filtering step with no filter set -/

theorem queryOf_empty (P : Platform) : queryOf P "" = "" := by
  have h : ((JSVal.str "").orElse (JSVal.str "")).toStr P = "" := rfl
  rw [queryOf, h, P.toLowerCase_empty]
  rfl

theorem filterRows_of_query_empty (P : Platform) (qValue : String) (rows : List Obj)
    (hq : queryOf P qValue = "") : filterRows P qValue "all" rows = rows := by
  simp [filterRows, hq]

/-- C3: when the text query (the value of the text input, lower-cased and trimmed) is
empty and the boolean filter is `"all"`, the filtering step of `applyFilters` returns the
full row set, every row kept and in its original order; this is so in particular when the
text input is empty. -/
theorem filterRows_all (P : Platform) (qValue : String) (rows : List Obj) :
    (queryOf P qValue = "" → filterRows P qValue "all" rows = rows)
    ∧ filterRows P "" "all" rows = rows :=
  ⟨filterRows_of_query_empty P qValue rows,
    filterRows_of_query_empty P "" rows (queryOf_empty P)⟩

/-- C3 on the rows of the end-to-end example, the text input holding two blanks. -/
theorem filterRows_all_witness : filterRows refPlatform "  " "all" sampleRows = sampleRows :=
  (filterRows_all refPlatform "  " sampleRows).1 (by decide!)

/-! ## C4: `applyFilters` under the default sort -/

theorem drawBarChart_bars_length (P : Platform) (cv : Canvas) (labels values : List JSVal) :
    (drawBarChart P cv labels values).bars.length = values.length := by
  simp [drawBarChart]

theorem le_numKey_of_rank (P : Platform) (key : String) (a b : Obj)
    (h : (numKey P key a).rank ≤ (numKey P key b).rank) :
    JSNum.le (numKey P key a) (numKey P key b) = true :=
  JSNum.le_iff_rank.mpr ⟨numKey_ne_nan P key a, numKey_ne_nan P key b, h⟩

/-- C4: under the default sort spec (`score`, `desc`), for every loaded row set and every
filter state, `applyFilters` renders the filtered rows in non-increasing score order; the
chart is drawn from the first ten (or fewer) rows of the filtered set sorted by score
descending, one bar per row, so it has at most ten bars; and when a row passes the filter,
the first bar is that of a row whose score is maximal among the filtered rows.  On the rows
`A` (score 10) and `B` (score 90) with no filter set, `B` is rendered before `A` and the
first bar is that of `B`. -/
theorem applyFilters_default_sort (P : Platform) :
    (∀ (s : PageState) (d : Inputs),
      s.currentSort = { key := "score", dir := "desc" } →
      (applyFilters P s d).tblBody = renderTable P (applyFilters P s d).state.filtered
      ∧ ((applyFilters P s d).state.filtered).Perm
          (filterRows P d.qMinistere d.fPointFocal s.ministeres)
      ∧ ((applyFilters P s d).state.filtered).Pairwise
          (fun a b => JSNum.le (numKey P "score" b) (numKey P "score" a) = true)
      ∧ (applyFilters P s d).chart
          = drawBarChart P d.chartMinisteres
              (((sortRows P (filterRows P d.qMinistere d.fPointFocal s.ministeres)
                "score" "desc").take 10).map (fun x => x.get "ministere"))
              (((sortRows P (filterRows P d.qMinistere d.fPointFocal s.ministeres)
                "score" "desc").take 10).map (fun x => x.get "score"))
      ∧ (applyFilters P s d).chart.bars.length
          = min 10 (filterRows P d.qMinistere d.fPointFocal s.ministeres).length
      ∧ (applyFilters P s d).chart.bars.length ≤ 10
      ∧ (filterRows P d.qMinistere d.fPointFocal s.ministeres ≠ [] →
          ∃ r₀ ∈ filterRows P d.qMinistere d.fPointFocal s.ministeres,
            (∀ r ∈ filterRows P d.qMinistere d.fPointFocal s.ministeres,
              JSNum.le (numKey P "score" r) (numKey P "score" r₀) = true)
            ∧ ((applyFilters P s d).state.filtered).head? = some r₀
            ∧ ((applyFilters P s d).chart.bars.head?).map (fun b => (b.short, b.valueText))
                = some (shortLabel P (r₀.get "ministere"),
                    numToString P ((r₀.get "score").toNumber P).round)))
    ∧ (∀ cv : Canvas,
        ((applyFilters P { initialState with ministeres := sampleRows }
            { qMinistere := "", fPointFocal := "all", chartMinisteres := cv }).tblBody.map
          (fun t => t.ministere)) = ["B", "A"]
        ∧ ((applyFilters P { initialState with ministeres := sampleRows }
            { qMinistere := "", fPointFocal := "all", chartMinisteres := cv }).chart.bars.map
          (fun b => (b.short, b.valueText))) = [("B", "90"), ("A", "10")]) := by
  have h₁ : ("score" : String) ≠ "ministere" := by decide
  have h₂ : ("score" : String) ≠ "point_focal" := by decide
  have hd : ("desc" : String) ≠ "asc" := by decide
  constructor
  · intro s d hs
    have hsorted := sortRows_desc_sorted P
      (filterRows P d.qMinistere d.fPointFocal s.ministeres) "score" "desc" h₁ h₂ hd
    have hperm := sortRows_perm P
      (filterRows P d.qMinistere d.fPointFocal s.ministeres) "score" "desc"
    have hidem := sortRows_desc_of_sorted P _ "score" "desc" h₁ h₂ hd hsorted
    have hf : (applyFilters P s d).state.filtered
        = sortRows P (filterRows P d.qMinistere d.fPointFocal s.ministeres) "score" "desc" := by
      simp [applyFilters, hs]
    have hc : (applyFilters P s d).chart
        = drawBarChart P d.chartMinisteres
            (((sortRows P (filterRows P d.qMinistere d.fPointFocal s.ministeres)
              "score" "desc").take 10).map (fun x => x.get "ministere"))
            (((sortRows P (filterRows P d.qMinistere d.fPointFocal s.ministeres)
              "score" "desc").take 10).map (fun x => x.get "score")) := by
      simp only [applyFilters, hs, hidem]
    have hlen : (applyFilters P s d).chart.bars.length
        = min 10 (filterRows P d.qMinistere d.fPointFocal s.ministeres).length := by
      rw [hc, drawBarChart_bars_length, List.length_map, List.length_take, hperm.length_eq]
    refine ⟨rfl, hf ▸ hperm, ?_, hc, hlen, ?_, ?_⟩
    · rw [hf]
      exact hsorted.imp (fun {a b} h => le_numKey_of_rank P "score" b a h)
    · rw [hlen]
      exact min_le_left _ _
    · intro hne
      rw [hc, hf]
      cases hl : sortRows P (filterRows P d.qMinistere d.fPointFocal s.ministeres)
          "score" "desc" with
      | nil =>
        rw [hl] at hperm
        exact absurd hperm.symm.eq_nil hne
      | cons r₀ rest =>
        rw [hl] at hsorted hperm
        have hr₀ : ∀ r ∈ rest, (numKey P "score" r).rank ≤ (numKey P "score" r₀).rank :=
          (List.pairwise_cons.mp hsorted).1
        refine ⟨r₀, hperm.mem_iff.mp (List.mem_cons_self _ _), ?_, rfl, ?_⟩
        · intro r hr
          rcases List.mem_cons.mp (hperm.mem_iff.mpr hr) with rfl | hr
          · exact le_numKey_of_rank P "score" _ _ le_rfl
          · exact le_numKey_of_rank P "score" _ _ (hr₀ r hr)
        · simp [drawBarChart, drawBar, List.enum, List.enumFrom]
  · intro cv
    have hq : filterRows P "" "all" sampleRows = sampleRows :=
      filterRows_of_query_empty P "" sampleRows (queryOf_empty P)
    have hsort : sortRows P sampleRows "score" "desc" = sampleRows.reverse := by
      with_unfolding_all rfl
    have hsort₂ : sortRows P sampleRows.reverse "score" "desc" = sampleRows.reverse := by
      with_unfolding_all rfl
    constructor
    · simp only [applyFilters, initialState, hq, hsort]
      rfl
    · simp only [applyFilters, initialState, hq, hsort, hsort₂]
      with_unfolding_all rfl

/-- C4 on the rows of the end-to-end example, with the initial sort spec and no filter
set. -/
theorem applyFilters_default_sort_witness :
    ((applyFilters refPlatform { initialState with ministeres := sampleRows }
        { qMinistere := "", fPointFocal := "all",
          chartMinisteres := { rectWidth := 300, rectHeight := 200, devicePixelRatio := 2 } }
      ).state.filtered).Pairwise
      (fun a b => JSNum.le (numKey refPlatform "score" b) (numKey refPlatform "score" a) = true) :=
  ((applyFilters_default_sort refPlatform).1 { initialState with ministeres := sampleRows }
    { qMinistere := "", fPointFocal := "all",
      chartMinisteres := { rectWidth := 300, rectHeight := 200, devicePixelRatio := 2 } }
    rfl).2.2.1

/-! ## C5 and C6: CSV export -/

theorem unescapeChars_doubled (cs : List Char) :
    unescapeChars (doubleQuoteChars cs ++ [dquote]) = some cs := by
  induction cs with
  | nil => simp [unescapeChars, doubleQuoteChars]
  | cons c cs ih =>
    by_cases hc : c = dquote
    · subst hc
      simp only [doubleQuoteChars, if_true, List.cons_append, unescapeChars, List.append_eq,
        ih, Option.map_some']
    · cases hrest : doubleQuoteChars cs ++ [dquote] with
      | nil => exact absurd hrest (List.append_ne_nil_of_right_ne_nil _ (List.cons_ne_nil _ _))
      | cons d rest =>
        rw [hrest] at ih
        simp only [doubleQuoteChars, hc, if_false, List.cons_append]
        rw [hrest]
        simp only [unescapeChars, hc, if_false, ih, Option.map_some']

theorem esc_data (P : Platform) (v : JSVal) :
    (esc P v).data = dquote ::
      (doubleQuoteChars ((v.nullish (JSVal.str "")).toStr P).data ++ [dquote]) := by
  simp [esc, doubleQuotes, String.data_append]
  rfl

theorem unquote_esc (P : Platform) (v : JSVal) :
    unquote (esc P v) = some ((v.nullish (JSVal.str "")).toStr P) := by
  simp [unquote, esc_data, unescapeChars_doubled]

/-- C5: the code evaluated at the failing input.  On `[{a:1,b:"x,y"}]` `toCSV` returns the
header line `a,b`, the column names joined as they are, where C5 asks for `"a","b"`; the
record line `"1","x,y"` is as C5 states it.  On `[{"x,y":1}]` the header line is `x,y`,
which reads as two columns over a record of one field. -/
theorem toCSV_header_raw (P : Platform) :
    toCSV P [[("a", JSVal.num 1), ("b", JSVal.str "x,y")]] = "a,b\n\"1\",\"x,y\""
    ∧ toCSV P [[("a", JSVal.num 1), ("b", JSVal.str "x,y")]] ≠ "\"a\",\"b\"\n\"1\",\"x,y\""
    ∧ toCSV P [[("x,y", JSVal.num 1)]] = "x,y\n\"1\"" := by
  have h : toCSV P [[("a", JSVal.num 1), ("b", JSVal.str "x,y")]] = "a,b\n\"1\",\"x,y\"" := by
    with_unfolding_all rfl
  refine ⟨h, ?_, by with_unfolding_all rfl⟩
  rw [h]
  decide

/-- The column names of the exported file. -/
theorem exportRows_keys (P : Platform) (r : Obj) (rest : List Obj) :
    toCSV P (exportRows (r :: rest)) = "\n".intercalate
      (",".intercalate
          ["ministere", "formes_genre_pct", "point_focal", "integration_pct", "score"] ::
        (exportRows (r :: rest)).map (fun x => ",".intercalate
          (["ministere", "formes_genre_pct", "point_focal", "integration_pct", "score"].map
            (fun h => esc P (x.get h))))) := rfl

theorem exportRows_records (P : Platform) (l : List Obj) :
    (exportRows l).map (fun x => ",".intercalate
      (["ministere", "formes_genre_pct", "point_focal", "integration_pct", "score"].map
        (fun h => esc P (x.get h))))
    = l.map (fun r => ",".intercalate
        [esc P (r.get "ministere"), esc P (r.get "formes_genre"),
          esc P (JSVal.str (if (r.get "point_focal").truthy then "Oui" else "Non")),
          esc P (r.get "integration"), esc P (r.get "score")]) := by
  simp only [exportRows, List.map_map]
  rfl

/-- C6: for a non-empty filtered row set, the export handler hands `downloadText` the file
name `ministeres_table.csv` and a text made of the header line followed by one record per
row of `_filtered`, in the order of `_filtered`; every field of every record is the text
of the value wrapped in double quotes, each double quote inside it written twice, and a
`null` or `undefined` value gives the empty quoted field. -/
theorem btnExportClick_records (P : Platform) (s : PageState) (hne : s.filtered ≠ []) :
    btnExportClick P s = ("ministeres_table.csv", "\n".intercalate
      ("ministere,formes_genre_pct,point_focal,integration_pct,score" ::
        s.filtered.map (fun r => ",".intercalate
          [esc P (r.get "ministere"), esc P (r.get "formes_genre"),
            esc P (JSVal.str (if (r.get "point_focal").truthy then "Oui" else "Non")),
            esc P (r.get "integration"), esc P (r.get "score")])))
    ∧ (∀ v : JSVal,
        (esc P v).data = dquote ::
          (doubleQuoteChars ((v.nullish (JSVal.str "")).toStr P).data ++ [dquote])
        ∧ unquote (esc P v) = some ((v.nullish (JSVal.str "")).toStr P))
    ∧ esc P JSVal.null = "\"\"" ∧ esc P JSVal.undefined = "\"\"" := by
  refine ⟨?_, fun v => ⟨esc_data P v, unquote_esc P v⟩, rfl, rfl⟩
  cases hf : s.filtered with
  | nil => exact absurd hf hne
  | cons r₀ rest =>
    rw [btnExportClick, hf, exportRows_keys, exportRows_records]
    rfl

/-- C6 on a page whose loaded rows are `tiedRows` and whose filtered rows are
`sampleRows`: the records are those of `sampleRows`. -/
theorem btnExportClick_records_witness :
    (btnExportClick refPlatform
      { ministeres := tiedRows, filtered := sampleRows,
        currentSort := { key := "score", dir := "desc" } }).2
      = "ministere,formes_genre_pct,point_focal,integration_pct,score\n" ++
        "\"A\",\"\",\"Non\",\"\",\"10\"\n" ++ "\"B\",\"\",\"Non\",\"\",\"90\"" :=
  (congrArg Prod.snd (btnExportClick_records refPlatform
    { ministeres := tiedRows, filtered := sampleRows,
      currentSort := { key := "score", dir := "desc" } } (by decide)).1).trans (by decide!)

/-! ## C7: the formatters -/

theorem round_fin_nearest (q : ℚ) :
    |((⌊q + 1 / 2⌋ : ℤ) : ℚ) - q| ≤ 1 / 2 := by
  have h₁ := Int.floor_le (q + 1 / 2)
  have h₂ := Int.lt_floor_add_one (q + 1 / 2)
  rw [abs_le]
  constructor <;> linarith

theorem numToString_int (P : Platform) (n : ℤ) (h : n.natAbs < 2 ^ 53) :
    numToString P (JSNum.fin n) = toString n := by
  have hden : ((n : ℚ)).den = 1 := Rat.den_intCast n
  have hnum : ((n : ℚ)).num = n := Rat.num_intCast n
  rw [numToString, hden, hnum, if_pos ⟨rfl, h⟩]

/-- C7, as stated, fails: the boolean `true` is not a number, yet `fmtPct(true)` is `1%`
and `fmtNum(true)` is not the dash either; likewise `fmtPct("")` is `0%`. -/
theorem fmtPct_true_not_dash :
    fmtPct refPlatform (JSVal.bool true) = "1%"
    ∧ fmtPct refPlatform (JSVal.bool true) ≠ "—"
    ∧ fmtNum refPlatform (JSVal.bool true) ≠ "—"
    ∧ fmtPct refPlatform (JSVal.str "") = "0%" := by
  decide!

/-- C7, amended: `fmtPct` and `fmtNum` return the placeholder dash when the input is
`null`, `undefined` or converts to `NaN` (`Number(x)` is `NaN`); otherwise `fmtPct` returns
the text of `Math.round(Number(x))` followed by `%`, where for a finite `Number(x)` the
rounded value is an integer at distance at most one half, printed with its decimal digits
when it is below `2^53` in size.  In particular `fmtPct(42.6)` is `43%`, `fmtPct(null)` and
`fmtNum(undefined)` are the dash, and the booleans convert to 1 and 0: `fmtPct(true)` is
`1%` and `fmtPct(false)` is `0%`. -/
theorem fmtPct_fmtNum (P : Platform) (x : JSVal) :
    ((x = JSVal.null ∨ x = JSVal.undefined ∨ x.toNumber P = JSNum.nan) →
      fmtPct P x = "—" ∧ fmtNum P x = "—")
    ∧ (¬ (x = JSVal.null ∨ x = JSVal.undefined ∨ x.toNumber P = JSNum.nan) →
      fmtPct P x = numToString P (x.toNumber P).round ++ "%")
    ∧ (∀ q : ℚ, x.toNumber P = JSNum.fin q →
      ∃ n : ℤ, (x.toNumber P).round = JSNum.fin n ∧ |(n : ℚ) - q| ≤ 1 / 2
        ∧ (n.natAbs < 2 ^ 53 → numToString P (x.toNumber P).round = toString n))
    ∧ fmtPct P (JSVal.num (JSNum.fin 42.6)) = "43%"
    ∧ fmtPct P JSVal.null = "—" ∧ fmtNum P JSVal.undefined = "—"
    ∧ fmtPct P (JSVal.bool true) = "1%" ∧ fmtPct P (JSVal.bool false) = "0%" := by
  refine ⟨?_, ?_, ?_, by with_unfolding_all rfl, rfl, rfl, by with_unfolding_all rfl,
    by with_unfolding_all rfl⟩
  · intro h
    simp [fmtPct, fmtNum, h, dash]
  · intro h
    simp [fmtPct, h]
  · intro q hq
    refine ⟨⌊q + 1 / 2⌋, ?_, round_fin_nearest q, ?_⟩
    · rw [hq]
      rfl
    · intro hn
      rw [hq]
      exact numToString_int P _ hn

/-- C7, amended, on a string that converts to `NaN` and on the number `42.6`. -/
theorem fmtPct_fmtNum_witness :
    (fmtPct refPlatform (JSVal.str "abc") = "—" ∧ fmtNum refPlatform (JSVal.str "abc") = "—")
    ∧ fmtPct refPlatform (JSVal.num (JSNum.fin 42.6))
      = numToString refPlatform ((JSVal.num (JSNum.fin 42.6)).toNumber refPlatform).round ++ "%"
    ∧ ∃ n : ℤ, ((JSVal.num (JSNum.fin 42.6)).toNumber refPlatform).round = JSNum.fin n
        ∧ |(n : ℚ) - 42.6| ≤ 1 / 2
        ∧ (n.natAbs < 2 ^ 53 →
          numToString refPlatform ((JSVal.num (JSNum.fin 42.6)).toNumber refPlatform).round
            = toString n) :=
  ⟨(fmtPct_fmtNum refPlatform (JSVal.str "abc")).1 (Or.inr (Or.inr (by decide!))),
    (fmtPct_fmtNum refPlatform (JSVal.num (JSNum.fin 42.6))).2.1 (by decide!),
    (fmtPct_fmtNum refPlatform (JSVal.num (JSNum.fin 42.6))).2.2.1 42.6 rfl⟩

/-! ## C8: denominators of the chart renderer -/

theorem max2_one_ne_zero (m : JSNum) : JSNum.max2 m 1 ≠ JSNum.fin 0 := by
  rw [JSNum.one_def]
  cases m with
  | fin q =>
    by_cases hq : q < 1
    · simp [JSNum.max2, JSNum.lt, hq]
    · have h0 : q ≠ 0 := fun h => hq (by rw [h]; norm_num)
      simp [JSNum.max2, JSNum.lt, hq, h0]
  | _ => simp [JSNum.max2, JSNum.lt]

theorem foldl_max2_ne_nan (xs : List JSNum) (hx : ∀ x ∈ xs, x ≠ JSNum.nan) :
    ∀ a : JSNum, a ≠ JSNum.nan → xs.foldl JSNum.max2 a ≠ JSNum.nan := by
  induction xs with
  | nil => intro a ha; simpa using ha
  | cons x xs ih =>
    intro a ha
    have hxn : x ≠ JSNum.nan := hx x (List.mem_cons_self _ _)
    refine ih (fun y hy => hx y (List.mem_cons_of_mem _ hy)) _ ?_
    simp only [JSNum.max2, ha, hxn, or_self, if_false]
    split <;> assumption

theorem one_le_max2_one (m : JSNum) (hm : m ≠ JSNum.nan) :
    JSNum.le 1 (JSNum.max2 m 1) = true := by
  rw [JSNum.one_def]
  cases m <;> simp_all [JSNum.max2, JSNum.lt, JSNum.le]
  split <;> simp_all [JSNum.lt, le_of_lt]

theorem drawBarChart_maxV (P : Platform) (cv : Canvas) (labels values : List JSVal) :
    (drawBarChart P cv labels values).maxV
      = JSNum.max2 ((values.map (JSVal.toNumber P)).foldl JSNum.max2 JSNum.ninf) 1 := by
  simp [drawBarChart, JSNum.mathMax, List.foldl_append]

theorem orElse_one_ne_zero (a : JSNum) :
    a.orElse 1 ≠ JSNum.fin 0 ∧ a.orElse 1 ≠ JSNum.nan := by
  rw [JSNum.one_def]
  cases a <;> simp [JSNum.orElse, JSNum.truthy]
  split <;> simp_all

/-- C8, as stated, fails: on the empty array `drawBarChart` divides by `values.length`,
which is zero. -/
theorem drawBarChart_empty_zero_denominator :
    JSNum.fin 0 ∈ (drawBarChart refPlatform sampleCanvas [] []).denominators := by
  decide!

/-- C8, amended: `drawBarChart` returns for every array of values, drawing one bar per
value; its max-value denominator is at least 1 when no value is `NaN`; on a non-empty array
no denominator is zero, while on the empty array the only division made is the one by
`values.length`, which is zero, and no bar is drawn.  The total by which `drawDoughnut`
divides is never zero (nor `NaN`), and no denominator of `drawDoughnut` is zero. -/
theorem chart_denominators (P : Platform) (cv : Canvas) :
    (∀ labels values : List JSVal,
      (drawBarChart P cv labels values).bars.length = values.length)
    ∧ (∀ labels values : List JSVal, (∀ v ∈ values, v.toNumber P ≠ JSNum.nan) →
      JSNum.le 1 (drawBarChart P cv labels values).maxV = true)
    ∧ (∀ labels values : List JSVal, values ≠ [] →
      ∀ d ∈ (drawBarChart P cv labels values).denominators, d ≠ JSNum.fin 0)
    ∧ (∀ labels : List JSVal,
      (drawBarChart P cv labels []).denominators = [JSNum.fin 0]
        ∧ (drawBarChart P cv labels []).bars = [])
    ∧ (∀ (segments : List Obj) (centerText : JSVal),
      (drawDoughnut P cv segments centerText).total ≠ JSNum.fin 0
        ∧ (drawDoughnut P cv segments centerText).total ≠ JSNum.nan
        ∧ ∀ d ∈ (drawDoughnut P cv segments centerText).denominators, d ≠ JSNum.fin 0) := by
  refine ⟨fun labels values => drawBarChart_bars_length P cv labels values, ?_, ?_, ?_, ?_⟩
  · intro labels values hv
    rw [drawBarChart_maxV]
    apply one_le_max2_one
    apply foldl_max2_ne_nan _ _ _ (by simp)
    intro x hx
    obtain ⟨v, hv', rfl⟩ := List.mem_map.mp hx
    exact hv v hv'
  · intro labels values hne d hd
    have hlen : (values.length : ℚ) ≠ 0 := by
      exact_mod_cast (List.length_pos.mpr hne).ne'
    have h2 : (2 : JSNum) ≠ JSNum.fin 0 := by
      rw [JSNum.ofNat_def]
      simp
    have hmax := max2_one_ne_zero ((values.map (JSVal.toNumber P)).foldl JSNum.max2 JSNum.ninf)
    rw [← drawBarChart_maxV P cv labels values] at hmax
    simp only [drawBarChart, List.mem_cons, List.mem_flatMap, List.mem_singleton,
      List.not_mem_nil, or_false] at hd hmax
    rcases hd with rfl | ⟨_, _, rfl | rfl | rfl⟩
    · simpa using hlen
    · exact hmax
    · exact h2
    · exact h2
  · intro labels
    constructor <;> simp [drawBarChart]
  · intro segments centerText
    have h2 : (2 : JSNum) ≠ JSNum.fin 0 := by
      rw [JSNum.ofNat_def]
      simp
    have ht := orElse_one_ne_zero (sumValues P segments)
    refine ⟨ht.1, ht.2, ?_⟩
    intro d hd
    simp only [drawDoughnut, List.mem_append, List.mem_cons, List.mem_singleton,
      List.not_mem_nil, or_false, List.mem_map] at hd
    rcases hd with (rfl | rfl | rfl) | ⟨_, _, rfl⟩
    · exact h2
    · exact h2
    · exact h2
    · exact ht.1

/-- C8, amended, on the scores 10 and 90 and on two segments of values 5 and -5. -/
theorem chart_denominators_witness :
    JSNum.le 1 (drawBarChart refPlatform sampleCanvas [JSVal.str "A", JSVal.str "B"]
      [JSVal.num 10, JSVal.num 90]).maxV = true
    ∧ (∀ d ∈ (drawBarChart refPlatform sampleCanvas [JSVal.str "A", JSVal.str "B"]
      [JSVal.num 10, JSVal.num 90]).denominators, d ≠ JSNum.fin 0)
    ∧ (drawDoughnut refPlatform sampleCanvas mixedSegments JSVal.undefined).total
      ≠ JSNum.fin 0 :=
  ⟨(chart_denominators refPlatform sampleCanvas).2.1 _ _ (by decide!),
    (chart_denominators refPlatform sampleCanvas).2.2.1 _ _ (by decide),
    ((chart_denominators refPlatform sampleCanvas).2.2.2.2 mixedSegments JSVal.undefined).1⟩

/-! ## C9: the doughnut of a zero total -/

theorem jsnum_add_def (a b : JSNum) : a + b = JSNum.add a b := rfl

theorem jsnum_mul_def (a b : JSNum) : a * b = JSNum.mul a b := rfl

theorem jsnum_div_def (a b : JSNum) : a / b = JSNum.div a b := rfl

theorem jsnum_zero_le_iff (a : JSNum) :
    JSNum.le (JSNum.fin 0) a = true ↔
      a = JSNum.pinf ∨ ∃ q : ℚ, 0 ≤ q ∧ a = JSNum.fin q := by
  cases a <;> simp [JSNum.le, JSNum.lt]

theorem add_nonneg_jsnum {a b : JSNum} (ha : JSNum.le (JSNum.fin 0) a = true)
    (hb : JSNum.le (JSNum.fin 0) b = true) : JSNum.le (JSNum.fin 0) (a + b) = true := by
  rw [jsnum_zero_le_iff] at ha hb ⊢
  rcases ha with rfl | ⟨x, hx, rfl⟩ <;> rcases hb with rfl | ⟨y, hy, rfl⟩
  · exact Or.inl rfl
  · exact Or.inl rfl
  · exact Or.inl rfl
  · exact Or.inr ⟨x + y, add_nonneg hx hy, rfl⟩

theorem add_eq_zero_jsnum {a b : JSNum} (ha : JSNum.le (JSNum.fin 0) a = true)
    (hb : JSNum.le (JSNum.fin 0) b = true) (h : a + b = JSNum.fin 0) :
    a = JSNum.fin 0 ∧ b = JSNum.fin 0 := by
  rw [jsnum_zero_le_iff] at ha hb
  rcases ha with rfl | ⟨x, hx, rfl⟩ <;> rcases hb with rfl | ⟨y, hy, rfl⟩
  · cases h
  · cases h
  · cases h
  · have hxy : x + y = 0 := by
      have := h
      simp only [jsnum_add_def, JSNum.add] at this
      exact JSNum.fin.inj this
    have hx0 : x = 0 := by linarith
    have hy0 : y = 0 := by linarith
    exact ⟨by rw [hx0], by rw [hy0]⟩

theorem foldl_add_eq_zero (P : Platform) (segments : List Obj)
    (hpos : ∀ s ∈ segments, JSNum.le (JSNum.fin 0) (numKey P "value" s) = true) :
    ∀ a : JSNum, JSNum.le (JSNum.fin 0) a = true →
      segments.foldl (fun a s => a + ((s.get "value").toNumber P).orElse 0) a = JSNum.fin 0 →
      a = JSNum.fin 0 ∧ ∀ s ∈ segments, numKey P "value" s = JSNum.fin 0 := by
  induction segments with
  | nil =>
    intro a _ h
    exact ⟨h, fun s hs => absurd hs (List.not_mem_nil s)⟩
  | cons s segments ih =>
    intro a ha h
    have hs : JSNum.le (JSNum.fin 0) (numKey P "value" s) = true :=
      hpos s (List.mem_cons_self _ _)
    have hrest := ih (fun t ht => hpos t (List.mem_cons_of_mem _ ht))
      (a + numKey P "value" s) (add_nonneg_jsnum ha hs) h
    have h0 := add_eq_zero_jsnum ha hs hrest.1
    refine ⟨h0.1, ?_⟩
    intro t ht
    rcases List.mem_cons.mp ht with rfl | ht
    · exact h0.2
    · exact hrest.2 t ht

theorem wedgesFrom_zero (P : Platform) (segments : List Obj)
    (hz : ∀ s ∈ segments, numKey P "value" s = JSNum.fin 0) :
    ∀ (start : JSNum) (idx : ℕ), ∀ g ∈ wedgesFrom P 1 start idx segments,
      g.startAngle = g.endAngle := by
  induction segments with
  | nil =>
    intro start idx g hg
    simp [wedgesFrom] at hg
  | cons s segments ih =>
    intro start idx g hg
    have hs : ((s.get "value").toNumber P).orElse 0 = JSNum.fin 0 :=
      hz s (List.mem_cons_self _ _)
    have hang : (JSNum.fin 0 / 1) * mathPI * 2 = JSNum.fin 0 := by
      simp [JSNum.one_def, JSNum.ofNat_def, mathPI, jsnum_div_def, jsnum_mul_def, JSNum.div,
        JSNum.mul]
    have hend : start + JSNum.fin 0 = start := by
      cases start <;> simp [jsnum_add_def, JSNum.add]
    simp only [wedgesFrom, hs, hang, hend, List.mem_cons] at hg
    rcases hg with rfl | hg
    · rfl
    · exact ih (fun t ht => hz t (List.mem_cons_of_mem _ ht)) start (idx + 1) g hg

theorem wedgesFrom_length (P : Platform) (total : JSNum) (segments : List Obj) :
    ∀ (start : JSNum) (idx : ℕ), (wedgesFrom P total start idx segments).length
      = segments.length := by
  induction segments with
  | nil => intro start idx; rfl
  | cons s segments ih =>
    intro start idx
    simp [wedgesFrom, ih]

/-- C9, as stated, fails: the values 5 and -5 add up to zero, yet the first wedge drawn
for them runs from its start angle to a different end angle. -/
theorem drawDoughnut_mixed_signs :
    sumValues refPlatform mixedSegments = JSNum.fin 0
      ∧ ¬ ∀ g ∈ (drawDoughnut refPlatform sampleCanvas mixedSegments JSVal.undefined).wedges,
          g.startAngle = g.endAngle := by
  decide!

/-- C9, amended: for every segment list whose values (`Number(s.value)||0`) are
non-negative and add up to zero, `drawDoughnut` returns, dividing by the total 1, with one
wedge per segment, and every wedge has its start angle equal to its end angle. -/
theorem drawDoughnut_zero_total (P : Platform) (cv : Canvas) (segments : List Obj)
    (centerText : JSVal)
    (hpos : ∀ s ∈ segments, JSNum.le (JSNum.fin 0) (numKey P "value" s) = true)
    (hsum : sumValues P segments = JSNum.fin 0) :
    (drawDoughnut P cv segments centerText).total = JSNum.fin 1
    ∧ (drawDoughnut P cv segments centerText).wedges.length = segments.length
    ∧ ∀ g ∈ (drawDoughnut P cv segments centerText).wedges, g.startAngle = g.endAngle := by
  have hz := (foldl_add_eq_zero P segments hpos (0 : JSNum)
    (by rw [JSNum.zero_def]; decide!) hsum).2
  have ht : (sumValues P segments).orElse 1 = 1 := by
    rw [hsum]
    simp [JSNum.orElse, JSNum.truthy]
  refine ⟨?_, wedgesFrom_length P _ segments _ _, ?_⟩
  · show (sumValues P segments).orElse 1 = JSNum.fin 1
    rw [ht, JSNum.one_def]
  · show ∀ g ∈ wedgesFrom P ((sumValues P segments).orElse 1) (-mathPI / 2) 0 segments,
      g.startAngle = g.endAngle
    rw [ht]
    exact wedgesFrom_zero P segments hz _ _

/-- C9, amended, on two segments of value zero, one of them a missing value. -/
theorem drawDoughnut_zero_total_witness :
    (drawDoughnut refPlatform sampleCanvas zeroSegments JSVal.undefined).total = JSNum.fin 1
    ∧ (drawDoughnut refPlatform sampleCanvas zeroSegments JSVal.undefined).wedges.length
      = zeroSegments.length
    ∧ ∀ g ∈ (drawDoughnut refPlatform sampleCanvas zeroSegments JSVal.undefined).wedges,
        g.startAngle = g.endAngle :=
  drawDoughnut_zero_total refPlatform sampleCanvas zeroSegments JSVal.undefined
    (by decide!) (by decide!)

/-! ## C10: bar heights -/

theorem foldl_max_ge_init (l : List ℚ) : ∀ a : ℚ, a ≤ l.foldl max a := by
  induction l with
  | nil => intro a; exact le_rfl
  | cons x l ih => intro a; exact le_trans (le_max_left a x) (ih (max a x))

theorem foldl_max_ge_mem (l : List ℚ) : ∀ a : ℚ, ∀ x ∈ l, x ≤ l.foldl max a := by
  induction l with
  | nil => intro a x hx; exact absurd hx (List.not_mem_nil x)
  | cons y l ih =>
    intro a x hx
    rcases List.mem_cons.mp hx with rfl | hx
    · exact le_trans (le_max_right a x) (foldl_max_ge_init l (max a x))
    · exact ih (max a y) x hx

theorem foldl_max_mem (l : List ℚ) : ∀ a : ℚ, l.foldl max a = a ∨ l.foldl max a ∈ l := by
  induction l with
  | nil => intro a; exact Or.inl rfl
  | cons y l ih =>
    intro a
    rcases ih (max a y) with h | h
    · rcases max_choice a y with h' | h'
      · exact Or.inl (by rw [List.foldl_cons, h, h'])
      · exact Or.inr (by rw [List.foldl_cons, h, h']; exact List.mem_cons_self _ _)
    · exact Or.inr (List.mem_cons_of_mem _ h)

theorem foldl_max2_fin (l : List ℚ) : ∀ a : ℚ,
    (l.map JSNum.fin).foldl JSNum.max2 (JSNum.fin a) = JSNum.fin (l.foldl max a) := by
  induction l with
  | nil => intro a; rfl
  | cons x l ih =>
    intro a
    have hstep : JSNum.max2 (JSNum.fin a) (JSNum.fin x) = JSNum.fin (max a x) := by
      by_cases h : a < x
      · simp [JSNum.max2, JSNum.lt, h, max_eq_right (le_of_lt h)]
      · simp [JSNum.max2, JSNum.lt, h, max_eq_left (not_lt.mp h)]
    simp only [List.map_cons, List.foldl_cons, hstep, ih]

theorem drawBarChart_maxV_fin (P : Platform) (cv : Canvas) (labels : List JSVal) (q : ℚ)
    (rest : List ℚ) :
    (drawBarChart P cv labels ((q :: rest).map (fun x => JSVal.num (JSNum.fin x)))).maxV
      = JSNum.fin (max (rest.foldl max q) 1) := by
  have hmap : ((q :: rest).map (fun x => JSVal.num (JSNum.fin x))).map (JSVal.toNumber P)
      = JSNum.fin q :: rest.map JSNum.fin := by
    simp [JSVal.toNumber, Function.comp_def]
  have hfirst : JSNum.max2 JSNum.ninf (JSNum.fin q) = JSNum.fin q := by
    simp [JSNum.max2, JSNum.lt]
  rw [drawBarChart_maxV, hmap, List.foldl_cons, hfirst, foldl_max2_fin, JSNum.one_def]
  by_cases h : rest.foldl max q < 1
  · simp [JSNum.max2, JSNum.lt, h, max_eq_right (le_of_lt h)]
  · simp [JSNum.max2, JSNum.lt, h, max_eq_left (not_lt.mp h)]

theorem drawBarChart_chartH (P : Platform) (cv : Canvas) (labels values : List JSVal) :
    (drawBarChart P cv labels values).chartH = JSNum.fin (cv.rectHeight - 28 * 2 - 22) := by
  simp [drawBarChart, JSNum.ofNat_def, JSNum.sub_def, jsnum_mul_def, JSNum.mul, JSNum.add,
    JSNum.neg, sub_eq_add_neg]

theorem drawBarChart_barH (P : Platform) (cv : Canvas) (labels values : List JSVal) :
    (drawBarChart P cv labels values).bars.map (fun b => b.barH)
      = values.map (fun v => (v.toNumber P / (drawBarChart P cv labels values).maxV)
          * (drawBarChart P cv labels values).chartH) := by
  have h : ∀ (f : JSVal → JSNum) (l : List JSVal) (n : ℕ),
      (l.enumFrom n).map (fun iv => f iv.2) = l.map f := by
    intro f l
    induction l with
    | nil => intro n; rfl
    | cons v l ih => intro n; simp [List.enumFrom, ih]
  simp only [drawBarChart, List.map_map, List.enum, Function.comp_def, drawBar]
  exact h (fun v => JSVal.toNumber P v / JSNum.mathMax (List.map (JSVal.toNumber P) values ++ [1])
    * (JSNum.fin cv.rectHeight - 28 * 2 - 22)) values 0

/-- C10: for a non-empty array of non-negative values and a plot height
`chartH = h - 28*2 - 22 ≥ 0`, the denominator `maxV` is the largest of the values and 1, bar
`i` has height `values[i] / maxV * chartH`, every bar height lies between 0 and `chartH`,
bar heights are monotone in the values, and when the largest value is at least 1 a bar
holding it has height exactly `chartH`. -/
theorem drawBarChart_bar_heights (P : Platform) (cv : Canvas) (labels : List JSVal)
    (qs : List ℚ) (hne : qs ≠ []) (hpos : ∀ q ∈ qs, 0 ≤ q)
    (hH : 0 ≤ cv.rectHeight - 28 * 2 - 22) :
    ∃ M : ℚ,
      (drawBarChart P cv labels (qs.map (fun x => JSVal.num (JSNum.fin x)))).maxV = JSNum.fin M
      ∧ (∀ q ∈ qs, q ≤ M) ∧ 1 ≤ M ∧ (M = 1 ∨ M ∈ qs)
      ∧ (drawBarChart P cv labels (qs.map (fun x => JSVal.num (JSNum.fin x)))).chartH
          = JSNum.fin (cv.rectHeight - 28 * 2 - 22)
      ∧ (drawBarChart P cv labels (qs.map (fun x => JSVal.num (JSNum.fin x)))).bars.map
            (fun b => b.barH)
          = qs.map (fun q => JSNum.fin (q / M * (cv.rectHeight - 28 * 2 - 22)))
      ∧ (∀ q ∈ qs, 0 ≤ q / M * (cv.rectHeight - 28 * 2 - 22)
          ∧ q / M * (cv.rectHeight - 28 * 2 - 22) ≤ cv.rectHeight - 28 * 2 - 22)
      ∧ (∀ q ∈ qs, ∀ q' ∈ qs, q ≤ q' →
          q / M * (cv.rectHeight - 28 * 2 - 22) ≤ q' / M * (cv.rectHeight - 28 * 2 - 22))
      ∧ (∀ q ∈ qs, (∀ q' ∈ qs, q' ≤ q) → 1 ≤ q →
          q / M * (cv.rectHeight - 28 * 2 - 22) = cv.rectHeight - 28 * 2 - 22) := by
  cases qs with
  | nil => exact absurd rfl hne
  | cons q₀ rest =>
    have hM1 : (1 : ℚ) ≤ max (rest.foldl max q₀) 1 := le_max_right _ _
    have hM0 : (0 : ℚ) < max (rest.foldl max q₀) 1 := lt_of_lt_of_le one_pos hM1
    have hub : ∀ q ∈ q₀ :: rest, q ≤ max (rest.foldl max q₀) 1 := by
      intro q hq
      refine le_trans ?_ (le_max_left _ _)
      rcases List.mem_cons.mp hq with rfl | hq
      · exact foldl_max_ge_init rest q
      · exact foldl_max_ge_mem rest q₀ q hq
    have hmem : max (rest.foldl max q₀) 1 = 1
        ∨ max (rest.foldl max q₀) 1 ∈ q₀ :: rest := by
      rcases max_choice (rest.foldl max q₀) 1 with h | h
      · rw [h]
        rcases foldl_max_mem rest q₀ with h' | h'
        · exact Or.inr (by rw [h']; exact List.mem_cons_self _ _)
        · exact Or.inr (List.mem_cons_of_mem _ h')
      · exact Or.inl h
    refine ⟨max (rest.foldl max q₀) 1, drawBarChart_maxV_fin P cv labels q₀ rest, hub, hM1,
      hmem, drawBarChart_chartH P cv labels _, ?_, ?_, ?_, ?_⟩
    · rw [drawBarChart_barH, drawBarChart_maxV_fin, drawBarChart_chartH, List.map_map]
      apply List.map_congr_left
      intro q _
      simp [JSVal.toNumber, jsnum_div_def, jsnum_mul_def, JSNum.div, JSNum.mul, hM0.ne']
    · intro q hq
      have h0 : 0 ≤ q / max (rest.foldl max q₀) 1 := div_nonneg (hpos q hq) hM0.le
      have h1 : q / max (rest.foldl max q₀) 1 ≤ 1 := (div_le_one hM0).mpr (hub q hq)
      exact ⟨mul_nonneg h0 hH, by nlinarith⟩
    · intro q _ q' _ hqq'
      exact mul_le_mul_of_nonneg_right (div_le_div_of_nonneg_right hqq' hM0.le) hH
    · intro q hq hmax hq1
      have hle : max (rest.foldl max q₀) 1 ≤ q := by
        rcases hmem with h | h
        · rw [h]; exact hq1
        · exact hmax _ h
      have heq : q = max (rest.foldl max q₀) 1 := le_antisymm (hub q hq) hle
      rw [← heq, div_self (by linarith : q ≠ 0), one_mul]

/-- C10 on the values 10 and 90 drawn on a canvas 200 pixels high. -/
theorem drawBarChart_bar_heights_witness :
    ∃ M : ℚ,
      (drawBarChart refPlatform sampleCanvas [JSVal.str "A", JSVal.str "B"]
        ([10, 90].map (fun x => JSVal.num (JSNum.fin x)))).maxV = JSNum.fin M
      ∧ (∀ q ∈ [(10 : ℚ), 90], q ≤ M) ∧ 1 ≤ M ∧ (M = 1 ∨ M ∈ [(10 : ℚ), 90])
      ∧ (drawBarChart refPlatform sampleCanvas [JSVal.str "A", JSVal.str "B"]
        ([10, 90].map (fun x => JSVal.num (JSNum.fin x)))).chartH
          = JSNum.fin (sampleCanvas.rectHeight - 28 * 2 - 22)
      ∧ (drawBarChart refPlatform sampleCanvas [JSVal.str "A", JSVal.str "B"]
        ([10, 90].map (fun x => JSVal.num (JSNum.fin x)))).bars.map (fun b => b.barH)
          = [(10 : ℚ), 90].map
              (fun q => JSNum.fin (q / M * (sampleCanvas.rectHeight - 28 * 2 - 22)))
      ∧ (∀ q ∈ [(10 : ℚ), 90], 0 ≤ q / M * (sampleCanvas.rectHeight - 28 * 2 - 22)
          ∧ q / M * (sampleCanvas.rectHeight - 28 * 2 - 22)
            ≤ sampleCanvas.rectHeight - 28 * 2 - 22)
      ∧ (∀ q ∈ [(10 : ℚ), 90], ∀ q' ∈ [(10 : ℚ), 90], q ≤ q' →
          q / M * (sampleCanvas.rectHeight - 28 * 2 - 22)
            ≤ q' / M * (sampleCanvas.rectHeight - 28 * 2 - 22))
      ∧ (∀ q ∈ [(10 : ℚ), 90], (∀ q' ∈ [(10 : ℚ), 90], q' ≤ q) → 1 ≤ q →
          q / M * (sampleCanvas.rectHeight - 28 * 2 - 22)
            = sampleCanvas.rectHeight - 28 * 2 - 22) :=
  drawBarChart_bar_heights refPlatform sampleCanvas [JSVal.str "A", JSVal.str "B"] [10, 90]
    (by decide) (by decide!) (by decide!)

end EnqueteGenre
